import Mathlib

/-!
Verification of the resume-tailor pipeline (`src/main.py`).

Python strings are embedded as `List Char`: Python's `len`, slicing and
indexing count Unicode code points, exactly as `List Char` does, and this
representation lets every operation reduce inside the kernel.  The helpers
`pyStrip`, `pySplit`, `pyReplace` and `pyStartsWith` are executable models of
the Python string methods `str.strip()`, `str.split('\n')`,
`str.replace(pat, '')` and `str.startswith(pat)` used by `main.py`.
-/

namespace ResumeTailor

/-- A Python string, as its sequence of Unicode code points. -/
abbrev Str := List Char

/-- Characters stripped by Python's `str.strip()` (ASCII fragment: space, tab,
newline, carriage return, vertical tab, form feed). -/
def isPySpace (c : Char) : Bool :=
  c = ' ' || c = '\t' || c = '\n' || c = '\r' || c.toNat = 11 || c.toNat = 12

/-- Model of Python `s.strip()`: drop leading and trailing whitespace. -/
def pyStrip (s : Str) : Str :=
  ((s.dropWhile isPySpace).reverse.dropWhile isPySpace).reverse

/-- Model of Python `s.split('\n')`. -/
def pySplit : Str → List Str
  | [] => [[]]
  | c :: rest =>
    if c = '\n' then [] :: pySplit rest
    else
      match pySplit rest with
      | [] => [[c]]
      | l :: ls => (c :: l) :: ls

/-- Model of Python `s.startswith(pat)` (arguments: the string, the pattern). -/
def pyStartsWith : Str → Str → Bool
  | _, [] => true
  | [], _ :: _ => false
  | c :: s, p :: ps => c = p && pyStartsWith s ps

/-- Fuel-indexed worker for `pyReplace`: replaces left-to-right,
non-overlapping occurrences of `pat` by `repl`, as Python `str.replace`
does.  The fuel only forces structural recursion; `fuel ≥ s.length` makes it
run to completion. -/
def pyReplaceF (pat repl : Str) : Nat → Str → Str
  | 0, s => s
  | _ + 1, [] => []
  | fuel + 1, c :: rest =>
    if pat ≠ [] ∧ pyStartsWith (c :: rest) pat then
      repl ++ pyReplaceF pat repl fuel (rest.drop (pat.length - 1))
    else c :: pyReplaceF pat repl fuel rest

/-- Model of Python `s.replace(pat, repl)`. -/
def pyReplace (pat repl s : Str) : Str :=
  pyReplaceF pat repl s.length s

/-- A `textStyle` mapping, as a Python dict of style-attribute name to value
in insertion order. -/
abbrev Style := List (Str × Str)

/-- A `textRun` element of a Google Docs paragraph: literal `content` plus the
optional `textStyle` mapping (`text_run.get('textStyle', {})` in `read_doc`). -/
structure TextRun where
  content : Str
  textStyle : Option Style
deriving DecidableEq

/-- A paragraph element, which may or may not carry a `textRun`. -/
structure ParaElement where
  textRun : Option TextRun
deriving DecidableEq

/-- A structural element of the document body: either a paragraph (with its
list of elements) or some non-paragraph element (`none`). -/
structure Element where
  paragraph : Option (List ParaElement)
deriving DecidableEq

/-- One entry of the `styles` list built by `read_doc`: the dict
`{'start_index': ..., 'end_index': ..., 'style': ...}`. -/
structure StyleInfo where
  start_index : Nat
  end_index : Nat
  style : Style
deriving DecidableEq

/-- The text runs of the document body in walk order: for each element with a
`paragraph`, its paragraph elements that carry a `textRun`. -/
def docRuns (content : List Element) : List TextRun :=
  content.flatMap fun e =>
    match e.paragraph with
    | none => []
    | some pes => pes.filterMap (·.textRun)

/-- The accumulation loop of `read_doc` (`src/main.py:159-173`): walk the runs
in order, appending each run's content to the text buffer and recording a
`StyleInfo` from `current_index` to `current_index + len(content)`, with the
run's `textStyle` (empty mapping when absent). -/
def walk : List TextRun → Str → Nat → Str × List StyleInfo
  | [], text, _ => (text, [])
  | r :: rs, text, idx =>
    let info : StyleInfo := ⟨idx, idx + r.content.length, r.textStyle.getD []⟩
    let rest := walk rs (text ++ r.content) (idx + r.content.length)
    (rest.1, info :: rest.2)

/-- `read_doc` (`src/main.py:152-175`): walk the body content, then return
`text.strip()` together with the `styles` list (which is not adjusted for the
strip). -/
def read_doc (content : List Element) : Str × List StyleInfo :=
  let r := walk (docRuns content) [] 0
  (pyStrip r.1, r.2)

/-- A request of the `batchUpdate` body built by `create_tailored_resume`. -/
inductive DocRequest where
  | insertText (index : Nat) (text : Str)
  | updateTextStyle (startIndex endIndex : Nat) (textStyle : Style) (fields : Str)
deriving DecidableEq

/-- Model of Python `','.join(style.keys())`. -/
def commaJoin : List Str → Str
  | [] => []
  | [k] => k
  | k :: ks => k ++ ',' :: commaJoin ks

/-- `','.join(style_info['style'].keys())` from `create_tailored_resume`. -/
def joinKeys (style : Style) : Str :=
  commaJoin (style.map Prod.fst)

/-- The request list built by `create_tailored_resume`
(`src/main.py:426-446`): one `insertText` at index 1 with the new content,
then for each `style_info` an `updateTextStyle` whose range is the original
`start_index`/`end_index` shifted by the fixed base index 1, with the original
style and `fields` the comma-join of the style's keys. -/
def create_tailored_requests (content : Str) (styles : List StyleInfo) : List DocRequest :=
  DocRequest.insertText 1 content ::
    styles.map fun s =>
      DocRequest.updateTextStyle (s.start_index + 1) (s.end_index + 1) s.style (joinKeys s.style)

/-- The prefix `'Company:'` matched by `extract_job_details`. -/
def companyTag : Str := "Company:".data

/-- The prefix `'Title:'` matched by `extract_job_details`. -/
def titleTag : Str := "Title:".data

/-- The parsing loop of `extract_job_details` (`src/main.py:374-381`): for
each line, a line starting with `Company:` sets `company` to
`line.replace('Company:', '').strip()`, else a line starting with `Title:`
sets `title` likewise, and any other line is ignored. -/
def parseLines : List Str → Str → Str → Str × Str
  | [], company, title => (company, title)
  | line :: rest, company, title =>
    if pyStartsWith line companyTag then
      parseLines rest (pyStrip (pyReplace companyTag [] line)) title
    else if pyStartsWith line titleTag then
      parseLines rest company (pyStrip (pyReplace titleTag [] line))
    else parseLines rest company title

/-- `extract_job_details` response parsing (`src/main.py:372-386`): split the
response on newlines, run the parsing loop from empty fields, and fail
(`raise ValueError`) exactly when the resulting company or title is empty. -/
def extract_job_details (response : Str) : Option (Str × Str) :=
  let p := parseLines (pySplit response) [] []
  if p.1 = [] ∨ p.2 = [] then none else some p

/-- Modelled from the spec: the style re-projector of §4.2 is absent from the
source (`create_tailored_resume` applies the original offsets unchanged), so
the required scaling policy is modelled from the spec's words here.
`roundDiv a b` is `round(a / b)` on rationals, rounding half up. -/
def roundDiv (a b : Nat) : Nat :=
  (2 * a + b) / (2 * b)

/-- Modelled from the spec: the §4.2 re-projection policy.  With
`L = len(original.plain_text)` and `N = len(new_text)`, `L = 0` is the
degenerate case producing no spans; otherwise each span `(s, e, style)` maps
to `(round(s / L * N), round(e / L * N))`, clamped to `[0, N]` and to
`start ≤ end`. -/
def reproject (origLen newLen : Nat) (spans : List StyleInfo) : List StyleInfo :=
  if origLen = 0 then []
  else
    spans.map fun s =>
      let ns := min (roundDiv (s.start_index * newLen) origLen) newLen
      let ne := min (roundDiv (s.end_index * newLen) origLen) newLen
      ⟨ns, max ns ne, s.style⟩

/-- The concatenation of the run contents, i.e. the text accumulated by the
`read_doc` walk before `strip()`. -/
def concatContents : List TextRun → Str
  | [] => []
  | r :: rs => r.content ++ concatContents rs

/-- The span list produced by the `read_doc` walk starting at offset `idx`. -/
def spansOf : List TextRun → Nat → List StyleInfo
  | [], _ => []
  | r :: rs, idx =>
    ⟨idx, idx + r.content.length, r.textStyle.getD []⟩ :: spansOf rs (idx + r.content.length)

/-- A sample document: a styled run, a run-less paragraph element, a
non-paragraph element, and an unstyled run ending in a newline. -/
def demoBold : Style := [("bold".data, "true".data)]

def demoDoc : List Element :=
  [⟨some [⟨some ⟨"ab".data, some demoBold⟩⟩, ⟨none⟩]⟩, ⟨none⟩,
    ⟨some [⟨some ⟨"cd\n".data, none⟩⟩]⟩]

theorem walk_fst (runs : List TextRun) (text : Str) (idx : Nat) :
    (walk runs text idx).1 = text ++ concatContents runs := by
  induction runs generalizing text idx with
  | nil => simp [walk, concatContents]
  | cons r rs ih => simp [walk, concatContents, ih]

theorem walk_snd (runs : List TextRun) (text : Str) (idx : Nat) :
    (walk runs text idx).2 = spansOf runs idx := by
  induction runs generalizing text idx with
  | nil => simp [walk, spansOf]
  | cons r rs ih => simp [walk, spansOf, ih]

theorem spansOf_length (runs : List TextRun) (idx : Nat) :
    (spansOf runs idx).length = runs.length := by
  induction runs generalizing idx with
  | nil => simp [spansOf]
  | cons r rs ih => simp [spansOf, ih]

theorem spansOf_run (runs : List TextRun) (idx i : Nat) (a : StyleInfo) (r : TextRun)
    (ha : (spansOf runs idx)[i]? = some a) (hr : runs[i]? = some r) :
    a.end_index = a.start_index + r.content.length ∧ a.style = r.textStyle.getD [] := by
  induction runs generalizing idx i with
  | nil => simp at hr
  | cons x xs ih =>
    cases i with
    | zero =>
      simp [spansOf] at ha hr
      subst ha hr
      exact ⟨rfl, rfl⟩
    | succ j =>
      simp only [spansOf, List.getElem?_cons_succ] at ha hr
      exact ih _ _ ha hr

theorem spansOf_head (runs : List TextRun) (idx : Nat) (a : StyleInfo)
    (ha : (spansOf runs idx)[0]? = some a) : a.start_index = idx := by
  cases runs with
  | nil => simp [spansOf] at ha
  | cons x xs =>
    simp [spansOf] at ha
    subst ha
    rfl

theorem spansOf_chain (runs : List TextRun) (idx i : Nat) (a b : StyleInfo)
    (ha : (spansOf runs idx)[i]? = some a) (hb : (spansOf runs idx)[i + 1]? = some b) :
    b.start_index = a.end_index := by
  induction runs generalizing idx i with
  | nil => simp [spansOf] at ha
  | cons x xs ih =>
    cases i with
    | zero =>
      simp [spansOf] at ha hb
      subst ha
      exact spansOf_head xs _ b hb
    | succ j =>
      simp only [spansOf, List.getElem?_cons_succ] at ha hb
      exact ih _ _ ha hb

theorem spansOf_last (runs : List TextRun) (idx : Nat) (a : StyleInfo)
    (ha : (spansOf runs idx).getLast? = some a) :
    a.end_index = idx + (concatContents runs).length := by
  induction runs generalizing idx with
  | nil => simp [spansOf] at ha
  | cons x xs ih =>
    cases xs with
    | nil =>
      simp only [spansOf, List.getLast?_singleton, Option.some.injEq] at ha
      subst ha
      simp [concatContents]
    | cons y ys =>
      have h2 : (spansOf (y :: ys) (idx + x.content.length)).getLast? = some a := by
        simp only [spansOf] at ha ⊢
        rwa [List.getLast?_cons_cons] at ha
      have := ih (idx + x.content.length) h2
      simp only [concatContents, List.length_append] at this ⊢
      omega

/-- C10: before the final whitespace trim, the span list built by `read_doc`
partitions the concatenation of all run contents: the walk's accumulated text
is that concatenation, there is one span per run, each span's width is its
run's content length, consecutive spans are contiguous, the first span starts
at 0 and the last span ends at the length of the un-trimmed text. -/
theorem c10_pretrim_partition (content : List Element) :
    (walk (docRuns content) [] 0).1 = concatContents (docRuns content) ∧
    (read_doc content).2.length = (docRuns content).length ∧
    (∀ (i : Nat) (a : StyleInfo) (r : TextRun),
      (read_doc content).2[i]? = some a → (docRuns content)[i]? = some r →
      a.end_index - a.start_index = r.content.length) ∧
    (∀ (i : Nat) (a b : StyleInfo),
      (read_doc content).2[i]? = some a → (read_doc content).2[i + 1]? = some b →
      b.start_index = a.end_index) ∧
    (∀ a : StyleInfo, (read_doc content).2[0]? = some a → a.start_index = 0) ∧
    (∀ a : StyleInfo, (read_doc content).2.getLast? = some a →
      a.end_index = ((walk (docRuns content) [] 0).1).length) := by
  have hsnd : (read_doc content).2 = spansOf (docRuns content) 0 := walk_snd _ [] 0
  refine ⟨by simpa using walk_fst (docRuns content) [] 0, ?_, ?_, ?_, ?_, ?_⟩
  · rw [hsnd]; exact spansOf_length _ 0
  · intro i a r ha hr
    rw [hsnd] at ha
    have := (spansOf_run _ 0 i a r ha hr).1
    omega
  · intro i a b ha hb
    rw [hsnd] at ha hb
    exact spansOf_chain _ 0 i a b ha hb
  · intro a ha
    rw [hsnd] at ha
    exact spansOf_head _ 0 a ha
  · intro a ha
    rw [hsnd] at ha
    rw [walk_fst (docRuns content) [] 0]
    simpa using spansOf_last _ 0 a ha

/-- Witness for C10 on `demoDoc`, instantiating the contiguity conjunct at the
two consecutive spans. -/
theorem c10_pretrim_partition_witness :
    (read_doc demoDoc).2[0]? = some ⟨0, 2, demoBold⟩ ∧
    (read_doc demoDoc).2[1]? = some ⟨2, 5, []⟩ ∧
    (⟨2, 5, ([] : Style)⟩ : StyleInfo).start_index = (⟨0, 2, demoBold⟩ : StyleInfo).end_index :=
  ⟨by decide, by decide,
    (c10_pretrim_partition demoDoc).2.2.2.1 0 ⟨0, 2, demoBold⟩ ⟨2, 5, []⟩ (by decide) (by decide)⟩

/-- C9: a document with no body content yields an empty snapshot (empty text
and empty span list) rather than an error, and a text run with no explicit
`textStyle` still yields a span whose style mapping is empty. -/
theorem c9_empty_doc_and_unstyled_run :
    read_doc [] = ([], []) ∧
    ∀ (content : List Element) (i : Nat) (r : TextRun) (a : StyleInfo),
      (docRuns content)[i]? = some r → r.textStyle = none →
      (read_doc content).2[i]? = some a → a.style = [] := by
  refine ⟨by decide, ?_⟩
  intro content i r a hr hnone ha
  have hsnd : (read_doc content).2 = spansOf (docRuns content) 0 := walk_snd _ [] 0
  rw [hsnd] at ha
  have := (spansOf_run _ 0 i a r ha hr).2
  rw [this, hnone]
  rfl

/-- Witness for C9 at the unstyled run of `demoDoc`. -/
theorem c9_empty_doc_and_unstyled_run_witness :
    (docRuns demoDoc)[1]? = some ⟨"cd\n".data, none⟩ ∧
    (read_doc demoDoc).2[1]? = some ⟨2, 5, []⟩ ∧
    (⟨2, 5, ([] : Style)⟩ : StyleInfo).style = [] :=
  ⟨by decide, by decide,
    c9_empty_doc_and_unstyled_run.2 demoDoc 1 ⟨"cd\n".data, none⟩ ⟨2, 5, []⟩
      (by decide) rfl (by decide)⟩

/-- A new text of length 50, standing for the rewriter's output. -/
def newFifty : Str := List.replicate 50 'x'

/-- C1 (failing-input evaluation): the spec's scaling policy sends the span
`[0,10)` of a length-100 original to `[0,5)` of a length-50 new text, but
`create_tailored_resume` emits the original offsets shifted only by the +1
insertion base (range `[1,11)`), never scaled. -/
theorem c1_no_scaling_at_failing_input :
    reproject 100 50 [⟨0, 10, demoBold⟩] = [⟨0, 5, demoBold⟩] ∧
    create_tailored_requests newFifty [⟨0, 10, demoBold⟩] =
      [DocRequest.insertText 1 newFifty,
        DocRequest.updateTextStyle 1 11 demoBold "bold".data] ∧
    (11 : Nat) ≠ 5 + 1 := by decide

/-- C2 (failing-input evaluation): for a document whose single run is
`"a\n"`, `read_doc` strips the text to `"a"` (length 1) but leaves the span
`[0,2)` untouched, so the span ranges do not cover `[0, len(plain_text))` and
no trim delta is subtracted. -/
theorem c2_trim_delta_not_subtracted :
    read_doc [⟨some [⟨some ⟨"a\n".data, none⟩⟩]⟩] = (['a'], [⟨0, 2, []⟩]) ∧
    (read_doc [⟨some [⟨some ⟨"a\n".data, none⟩⟩]⟩]).1.length = 1 ∧
    ¬ ((⟨0, 2, ([] : Style)⟩ : StyleInfo).end_index ≤
        (read_doc [⟨some [⟨some ⟨"a\n".data, none⟩⟩]⟩]).1.length) := by decide

/-- C3 (failing-input evaluation): for the span `[90,100)` of a length-100
original and a length-50 new text, `create_tailored_resume` emits the range
`[91,101)`, whose end offset 100 exceeds `len(new_text) = 50`; the spec's
scaling policy would emit the in-bounds `[45,50)`. -/
theorem c3_out_of_bounds_at_failing_input :
    create_tailored_requests newFifty [⟨90, 100, []⟩] =
      [DocRequest.insertText 1 newFifty, DocRequest.updateTextStyle 91 101 [] []] ∧
    newFifty.length = 50 ∧
    ¬ (101 - 1 ≤ newFifty.length) ∧
    reproject 100 50 [⟨90, 100, []⟩] = [⟨45, 50, []⟩] := by decide

/-- C4: when the new text equals the original plain text, the offsets applied
by `create_tailored_resume` (minus the fixed +1 insertion base) differ from
the original span offsets by at most 1 — in fact they are equal, since the
code applies the original offsets unchanged. -/
theorem c4_identity_within_tolerance (text new_text : Str) (styles : List StyleInfo)
    (h : new_text = text) (i : Nat) (hi : i < styles.length) :
    ∃ s e st f,
      (create_tailored_requests new_text styles)[i + 1]? =
        some (DocRequest.updateTextStyle s e st f) ∧
      ((s : ℤ) - 1 - (styles.get ⟨i, hi⟩).start_index).natAbs ≤ 1 ∧
      ((e : ℤ) - 1 - (styles.get ⟨i, hi⟩).end_index).natAbs ≤ 1 := by
  refine ⟨(styles.get ⟨i, hi⟩).start_index + 1, (styles.get ⟨i, hi⟩).end_index + 1,
    (styles.get ⟨i, hi⟩).style, joinKeys (styles.get ⟨i, hi⟩).style, ?_, ?_, ?_⟩
  · simp [create_tailored_requests, List.getElem?_eq_getElem, hi]
  · omega
  · omega

/-- Witness for C4 at a concrete snapshot. -/
theorem c4_identity_within_tolerance_witness :
    ∃ s e st f,
      (create_tailored_requests "ab".data [⟨0, 2, demoBold⟩])[0 + 1]? =
        some (DocRequest.updateTextStyle s e st f) ∧
      ((s : ℤ) - 1 -
        (([⟨0, 2, demoBold⟩] : List StyleInfo).get ⟨0, by decide⟩).start_index).natAbs ≤ 1 ∧
      ((e : ℤ) - 1 -
        (([⟨0, 2, demoBold⟩] : List StyleInfo).get ⟨0, by decide⟩).end_index).natAbs ≤ 1 :=
  c4_identity_within_tolerance "ab".data "ab".data [⟨0, 2, demoBold⟩] rfl 0 (by decide)

/-- C5: the applied start offsets are monotone in the original start offsets —
the code applies original offsets unchanged (plus the fixed +1 base), which
preserves order. -/
theorem c5_monotone (new_text : Str) (styles : List StyleInfo) (i j : Nat)
    (hi : i < styles.length) (hj : j < styles.length)
    (hs : (styles.get ⟨i, hi⟩).start_index ≤ (styles.get ⟨j, hj⟩).start_index) :
    ∃ si ei sti fi sj ej stj fj,
      (create_tailored_requests new_text styles)[i + 1]? =
        some (DocRequest.updateTextStyle si ei sti fi) ∧
      (create_tailored_requests new_text styles)[j + 1]? =
        some (DocRequest.updateTextStyle sj ej stj fj) ∧
      si ≤ sj := by
  refine ⟨(styles.get ⟨i, hi⟩).start_index + 1, (styles.get ⟨i, hi⟩).end_index + 1,
    (styles.get ⟨i, hi⟩).style, joinKeys (styles.get ⟨i, hi⟩).style,
    (styles.get ⟨j, hj⟩).start_index + 1, (styles.get ⟨j, hj⟩).end_index + 1,
    (styles.get ⟨j, hj⟩).style, joinKeys (styles.get ⟨j, hj⟩).style, ?_, ?_, ?_⟩
  · simp [create_tailored_requests, List.getElem?_eq_getElem, hi]
  · simp [create_tailored_requests, List.getElem?_eq_getElem, hj]
  · omega

/-- Witness for C5 at a concrete two-span snapshot. -/
theorem c5_monotone_witness :
    ∃ si ei sti fi sj ej stj fj,
      (create_tailored_requests "xy".data [⟨0, 2, demoBold⟩, ⟨2, 5, []⟩])[0 + 1]? =
        some (DocRequest.updateTextStyle si ei sti fi) ∧
      (create_tailored_requests "xy".data [⟨0, 2, demoBold⟩, ⟨2, 5, []⟩])[1 + 1]? =
        some (DocRequest.updateTextStyle sj ej stj fj) ∧
      si ≤ sj :=
  c5_monotone "xy".data [⟨0, 2, demoBold⟩, ⟨2, 5, []⟩] 0 1 (by decide) (by decide) (by decide)

/-- C6 (failing-input evaluation): for a document whose only run is three
spaces, `read_doc` returns an empty `plain_text` but a non-empty span list,
and `create_tailored_resume` still emits an `updateTextStyle` operation for
it, regardless of the new text. -/
theorem c6_empty_text_still_styled :
    read_doc [⟨some [⟨some ⟨"   ".data, none⟩⟩]⟩] = ([], [⟨0, 3, []⟩]) ∧
    (read_doc [⟨some [⟨some ⟨"   ".data, none⟩⟩]⟩]).2 ≠ [] ∧
    create_tailored_requests "xyz".data [⟨0, 3, []⟩] =
      [DocRequest.insertText 1 "xyz".data, DocRequest.updateTextStyle 1 4 [] []] := by decide

/-- C7: the job-detail parser returns the pair taken from `Company:` and
`Title:` lines (concretely on the two-line example), ignores lines matching
neither prefix, and fails exactly when either parsed field ends up empty
(concretely on the example with the `Title:` line missing). -/
theorem c7_job_details :
    extract_job_details "Company: Acme\nTitle: Senior Engineer\n".data =
      some ("Acme".data, "Senior Engineer".data) ∧
    extract_job_details "Company: Acme\n".data = none ∧
    (∀ (rest : List Str) (company title line : Str),
      pyStartsWith line companyTag = false → pyStartsWith line titleTag = false →
      parseLines (line :: rest) company title = parseLines rest company title) ∧
    (∀ response : Str, extract_job_details response = none ↔
      ((parseLines (pySplit response) [] []).1 = [] ∨
        (parseLines (pySplit response) [] []).2 = [])) := by
  refine ⟨by decide, by decide, ?_, ?_⟩
  · intro rest company title line h1 h2
    simp [parseLines, h1, h2]
  · intro response
    by_cases hc : (parseLines (pySplit response) [] []).1 = [] ∨
        (parseLines (pySplit response) [] []).2 = []
    · simp [extract_job_details, hc]
    · simp [extract_job_details, hc]

/-- Witness for C7: the prefix-free line `junk` is ignored, and the
error condition instantiated at the empty response. -/
theorem c7_job_details_witness :
    parseLines ["junk".data] "A".data "B".data = parseLines [] "A".data "B".data ∧
    (extract_job_details [] = none ↔
      ((parseLines (pySplit []) [] []).1 = [] ∨ (parseLines (pySplit []) [] []).2 = [])) :=
  ⟨c7_job_details.2.2.1 [] "A".data "B".data "junk".data (by decide) (by decide),
    c7_job_details.2.2.2 []⟩

/-- C8: `create_tailored_resume` translates the span list one-to-one and in
order into `updateTextStyle` operations (one insertion request followed by one
operation per span): the i-th operation carries the i-th span's style, its
`fields` is the comma-join of exactly that style's keys, and its range is the
span's offsets shifted by the fixed base index 1. -/
theorem c8_direct_translation (content : Str) (styles : List StyleInfo) :
    (create_tailored_requests content styles).length = styles.length + 1 ∧
    (create_tailored_requests content styles)[0]? = some (DocRequest.insertText 1 content) ∧
    ∀ (i : Nat) (hi : i < styles.length),
      (create_tailored_requests content styles)[i + 1]? =
        some (DocRequest.updateTextStyle ((styles.get ⟨i, hi⟩).start_index + 1)
          ((styles.get ⟨i, hi⟩).end_index + 1) (styles.get ⟨i, hi⟩).style
          (commaJoin ((styles.get ⟨i, hi⟩).style.map Prod.fst))) := by
  refine ⟨by simp [create_tailored_requests], by simp [create_tailored_requests], ?_⟩
  intro i hi
  simp [create_tailored_requests, joinKeys, List.getElem?_eq_getElem, hi]

/-- Witness for C8 at a concrete one-span snapshot. -/
theorem c8_direct_translation_witness :
    (create_tailored_requests "ab".data [⟨0, 2, demoBold⟩]).length =
      ([⟨0, 2, demoBold⟩] : List StyleInfo).length + 1 ∧
    (create_tailored_requests "ab".data [⟨0, 2, demoBold⟩])[0]? =
      some (DocRequest.insertText 1 "ab".data) ∧
    (create_tailored_requests "ab".data [⟨0, 2, demoBold⟩])[0 + 1]? =
      some (DocRequest.updateTextStyle
        ((([⟨0, 2, demoBold⟩] : List StyleInfo).get ⟨0, by decide⟩).start_index + 1)
        ((([⟨0, 2, demoBold⟩] : List StyleInfo).get ⟨0, by decide⟩).end_index + 1)
        (([⟨0, 2, demoBold⟩] : List StyleInfo).get ⟨0, by decide⟩).style
        (commaJoin ((([⟨0, 2, demoBold⟩] : List StyleInfo).get ⟨0, by decide⟩).style.map
          Prod.fst))) :=
  ⟨(c8_direct_translation "ab".data [⟨0, 2, demoBold⟩]).1,
    (c8_direct_translation "ab".data [⟨0, 2, demoBold⟩]).2.1,
    (c8_direct_translation "ab".data [⟨0, 2, demoBold⟩]).2.2 0 (by decide)⟩

end ResumeTailor
